import Mathlib

/-!
Verification development for the mpv-playlist-organizer browser extension
(src/background.js): the native-host connection manager with its
request/response correlator, the unsolicited-event router, and the M3U8
stream-detection subsystem.

The JavaScript service worker is single-threaded: every listener callback
and every synchronous slice of an async function runs to completion before
the next event is serviced.  We therefore embed the code as explicit state
machines whose steps correspond to those atomic slices.  JavaScript values
appearing in messages are embedded as `JVal`, objects as association lists
keyed by strings, and promises as entries of a ledger mapping promise ids
to a settlement state (a JS promise can be settled at most once; settling
an already-settled promise is a silent no-op, which `settleProm` mirrors).
-/

/-- Model of a JavaScript value as it appears in messages and settings. -/
inductive JVal where
  | str (s : String)
  | num (n : Int)
  | bool (b : Bool)
  | null
deriving DecidableEq, Repr

/-- A JavaScript object, as an association list of fields (keys unique). -/
abbrev Obj := List (String × JVal)

/-- JavaScript truthiness of a value (`if (v)`), per the embedding: the
empty string, the number 0, `false` and `null`/`undefined` are falsy. -/
def truthy : JVal → Bool
  | .str s => !(s == "")
  | .num n => !(n == 0)
  | .bool b => b
  | .null => false

/-- Coercion of a value to a property key, as JavaScript object indexing
performs (`String(v)`). -/
def keyOf : JVal → String
  | .str s => s
  | .num n => toString n
  | .bool b => if b then "true" else "false"
  | .null => "null"

/-- First-match lookup in an association list (JS object property read;
keys are unique in objects, so first match is the match). -/
def lookupAssoc {α β : Type} [DecidableEq α] : List (α × β) → α → Option β
  | [], _ => none
  | (k, v) :: rest, key => if k = key then some v else lookupAssoc rest key

/-- Removal of a key (JS `delete obj[k]`). -/
def eraseKey {α β : Type} [DecidableEq α] (l : List (α × β)) (k : α) : List (α × β) :=
  l.filter (fun e => e.1 ≠ k)

/-- Keyed insert-or-replace (JS `obj[k] = v`). -/
def setAssoc {α β : Type} [DecidableEq α] (l : List (α × β)) (k : α) (v : β) :
    List (α × β) :=
  (k, v) :: eraseKey l k

/-- Field read on an embedded JS object. -/
def lookupField (o : Obj) (k : String) : Option JVal := lookupAssoc o k

/-- Field removal on an embedded JS object (rest-destructuring
`const \x7b k, ...rest \x7d = o`). -/
def removeField (o : Obj) (k : String) : Obj := eraseKey o k

/-- Settlement state of a JS promise resolving with values of type `α`. -/
inductive PromState (α : Type) where
  | pending
  | fulfilled (v : α)
  | rejected (e : String)
deriving DecidableEq, Repr

/-- Transition applied to the targeted promise when it is settled: a JS
promise settles at most once, so a promise that is already fulfilled or
rejected is left unchanged. -/
def settleIfPending {α : Type} (st o : PromState α) : PromState α :=
  match st with
  | .pending => o
  | .fulfilled v => .fulfilled v
  | .rejected e => .rejected e

/-- Settling a promise in a ledger (no-op on already-settled entries). -/
def settleProm {α : Type} (ps : List (Nat × PromState α)) (p : Nat)
    (o : PromState α) : List (Nat × PromState α) :=
  ps.map fun e => if e.1 = p then (e.1, settleIfPending e.2 o) else e

theorem lookupAssoc_cons {α β : Type} [DecidableEq α] (a : α) (b : β)
    (rest : List (α × β)) (key : α) :
    lookupAssoc ((a, b) :: rest) key =
      if a = key then some b else lookupAssoc rest key := rfl

theorem eraseKey_cons {α β : Type} [DecidableEq α] (a : α) (b : β)
    (rest : List (α × β)) (k : α) :
    eraseKey ((a, b) :: rest) k =
      if a = k then eraseKey rest k else (a, b) :: eraseKey rest k := by
  by_cases h : a = k <;> simp [eraseKey, List.filter_cons, h]

theorem settleProm_cons {α : Type} (a : Nat) (st : PromState α)
    (rest : List (Nat × PromState α)) (p : Nat) (o : PromState α) :
    settleProm ((a, st) :: rest) p o =
      (if a = p then (a, settleIfPending st o) else (a, st)) :: settleProm rest p o := by
  by_cases h : a = p <;> simp [settleProm, h]

theorem lookupAssoc_eraseKey_self {α β : Type} [DecidableEq α]
    (l : List (α × β)) (k : α) : lookupAssoc (eraseKey l k) k = none := by
  induction l with
  | nil => rfl
  | cons e rest ih =>
    obtain ⟨a, b⟩ := e
    rw [eraseKey_cons]
    by_cases h : a = k
    · rw [if_pos h]; exact ih
    · rw [if_neg h, lookupAssoc_cons, if_neg h]; exact ih

theorem lookupAssoc_eraseKey_ne {α β : Type} [DecidableEq α]
    (l : List (α × β)) (k k' : α) (h : k' ≠ k) :
    lookupAssoc (eraseKey l k) k' = lookupAssoc l k' := by
  induction l with
  | nil => rfl
  | cons e rest ih =>
    obtain ⟨a, b⟩ := e
    rw [eraseKey_cons]
    by_cases he : a = k
    · have ha : ¬a = k' := by rw [he]; exact fun hc => h hc.symm
      rw [if_pos he, lookupAssoc_cons, if_neg ha]; exact ih
    · rw [if_neg he, lookupAssoc_cons, lookupAssoc_cons]
      by_cases hk : a = k'
      · rw [if_pos hk, if_pos hk]
      · rw [if_neg hk, if_neg hk]; exact ih

theorem lookupAssoc_setAssoc_self {α β : Type} [DecidableEq α]
    (l : List (α × β)) (k : α) (v : β) :
    lookupAssoc (setAssoc l k v) k = some v := by
  simp [setAssoc, lookupAssoc]

theorem lookupAssoc_setAssoc_ne {α β : Type} [DecidableEq α]
    (l : List (α × β)) (k k' : α) (v : β) (h : k' ≠ k) :
    lookupAssoc (setAssoc l k v) k' = lookupAssoc l k' := by
  have hk : k ≠ k' := fun hc => h hc.symm
  simp [setAssoc, lookupAssoc, hk, lookupAssoc_eraseKey_ne l k k' h]

theorem lookupAssoc_mem {α β : Type} [DecidableEq α]
    {l : List (α × β)} {k : α} {v : β} (h : lookupAssoc l k = some v) :
    (k, v) ∈ l := by
  induction l with
  | nil => simp [lookupAssoc] at h
  | cons e rest ih =>
    obtain ⟨a, b⟩ := e
    by_cases he : a = k
    · subst he
      simp [lookupAssoc] at h
      subst h
      exact List.mem_cons_self _ _
    · simp [lookupAssoc, he] at h
      exact List.mem_cons_of_mem _ (ih h)

theorem lookupAssoc_settleProm_ne {α : Type} (ps : List (Nat × PromState α))
    (p q : Nat) (o : PromState α) (h : q ≠ p) :
    lookupAssoc (settleProm ps p o) q = lookupAssoc ps q := by
  induction ps with
  | nil => rfl
  | cons e rest ih =>
    obtain ⟨a, st⟩ := e
    rw [settleProm_cons]
    by_cases hp : a = p
    · have ha : ¬a = q := by rw [hp]; exact fun hc => h hc.symm
      rw [if_pos hp, lookupAssoc_cons, lookupAssoc_cons, if_neg ha, if_neg ha]
      exact ih
    · rw [if_neg hp, lookupAssoc_cons, lookupAssoc_cons]
      by_cases hq : a = q
      · rw [if_pos hq, if_pos hq]
      · rw [if_neg hq, if_neg hq]; exact ih

theorem lookupAssoc_settleProm_pending {α : Type} (ps : List (Nat × PromState α))
    (p : Nat) (o : PromState α) (h : lookupAssoc ps p = some .pending) :
    lookupAssoc (settleProm ps p o) p = some o := by
  induction ps with
  | nil => simp [lookupAssoc] at h
  | cons e rest ih =>
    obtain ⟨a, st⟩ := e
    rw [settleProm_cons]
    by_cases hp : a = p
    · rw [lookupAssoc_cons, if_pos hp] at h
      have hst : st = PromState.pending := by simpa using h
      subst hst
      rw [if_pos hp, lookupAssoc_cons, if_pos hp]
      rfl
    · rw [lookupAssoc_cons, if_neg hp] at h
      rw [if_neg hp, lookupAssoc_cons, if_neg hp]
      exact ih h

theorem lookupAssoc_settleProm_settled {α : Type} (ps : List (Nat × PromState α))
    (p : Nat) (o st : PromState α) (h : lookupAssoc ps p = some st)
    (hst : st ≠ .pending) :
    lookupAssoc (settleProm ps p o) p = some st := by
  induction ps with
  | nil => simp [lookupAssoc] at h
  | cons e rest ih =>
    obtain ⟨a, b⟩ := e
    rw [settleProm_cons]
    by_cases hp : a = p
    · rw [lookupAssoc_cons, if_pos hp] at h
      have hb : b = st := by simpa using h
      subst hb
      rw [if_pos hp, lookupAssoc_cons, if_pos hp]
      cases b with
      | pending => exact absurd rfl hst
      | fulfilled v => rfl
      | rejected e => rfl
    · rw [lookupAssoc_cons, if_neg hp] at h
      rw [if_neg hp, lookupAssoc_cons, if_neg hp]
      exact ih h

/-!
Decimal rendering of the request counter.  `callNativeHost` builds the
request id with a template literal `req_${requestIdCounter++}`; the decimal
rendering is `Nat.repr`.  We prove the rendering injective by exhibiting a
computable left inverse (`interpDigits`), so distinct counters give
distinct request ids.
-/

/-- Numeric value of a decimal digit character. -/
def digitVal (c : Char) : Nat := c.toNat - '0'.toNat

/-- Value of a most-significant-first list of decimal digit characters. -/
def interpDigits (l : List Char) : Nat :=
  l.foldl (fun acc c => acc * 10 + digitVal c) 0

theorem digitVal_digitChar (d : Nat) (h : d < 10) :
    digitVal (Nat.digitChar d) = d := by
  interval_cases d <;> rfl

theorem toDigitsCore_append (b f : Nat) : ∀ (n : Nat) (ds : List Char),
    Nat.toDigitsCore b f n ds = Nat.toDigitsCore b f n [] ++ ds := by
  induction f with
  | zero => intro n ds; simp [Nat.toDigitsCore]
  | succ f ih =>
    intro n ds
    simp only [Nat.toDigitsCore]
    by_cases h : n / b = 0
    · simp [h]
    · rw [if_neg h, if_neg h, ih (n / b) (Nat.digitChar (n % b) :: ds),
        ih (n / b) [Nat.digitChar (n % b)], List.append_assoc]
      rfl

theorem interpDigits_append_singleton (l : List Char) (c : Char) :
    interpDigits (l ++ [c]) = interpDigits l * 10 + digitVal c := by
  simp [interpDigits, List.foldl_append]

theorem interp_toDigitsCore (f : Nat) : ∀ n : Nat, n < 10 ^ f →
    interpDigits (Nat.toDigitsCore 10 f n []) = n := by
  induction f with
  | zero =>
    intro n h
    have hn : n = 0 := by simpa using Nat.lt_one_iff.mp (by simpa using h)
    subst hn
    rfl
  | succ f ih =>
    intro n h
    simp only [Nat.toDigitsCore]
    by_cases h0 : n / 10 = 0
    · rw [if_pos h0]
      have hlt : n % 10 < 10 := Nat.mod_lt _ (by norm_num)
      have : interpDigits [Nat.digitChar (n % 10)] = n % 10 := by
        simp [interpDigits, digitVal_digitChar _ hlt]
      rw [this]
      omega
    · rw [if_neg h0, toDigitsCore_append, interpDigits_append_singleton]
      have hdiv : n / 10 < 10 ^ f := by
        rw [Nat.div_lt_iff_lt_mul (by norm_num : (0 : Nat) < 10)]
        calc n < 10 ^ (f + 1) := h
        _ = 10 ^ f * 10 := by rw [pow_succ]
      rw [ih (n / 10) hdiv, digitVal_digitChar _ (Nat.mod_lt _ (by norm_num))]
      omega

theorem interpDigits_toDigits (n : Nat) :
    interpDigits (Nat.toDigits 10 n) = n := by
  have hn : n < 10 ^ (n + 1) :=
    Nat.lt_of_lt_of_le (Nat.lt_pow_self (by norm_num) n)
      (Nat.pow_le_pow_right (by norm_num) (Nat.le_succ n))
  exact interp_toDigitsCore (n + 1) n hn

theorem nat_repr_injective : Function.Injective Nat.repr := by
  intro m n h
  have hd : Nat.toDigits 10 m = Nat.toDigits 10 n := by
    have := congrArg String.data h
    simpa [Nat.repr, List.asString] using this
  calc m = interpDigits (Nat.toDigits 10 m) := (interpDigits_toDigits m).symm
  _ = interpDigits (Nat.toDigits 10 n) := by rw [hd]
  _ = n := interpDigits_toDigits n

/-- Request id generated by `callNativeHost`: the template literal
`req_${requestIdCounter}` of src/background.js. -/
def reqId (n : Nat) : String := "req_" ++ Nat.repr n

theorem reqId_injective : Function.Injective reqId := by
  intro m n h
  apply nat_repr_injective
  have hd := congrArg String.data h
  rw [reqId, reqId, String.data_append, String.data_append] at hd
  have := List.append_cancel_left hd
  exact String.ext this

theorem reqId_ne_empty (n : Nat) : reqId n ≠ "" := by
  intro h
  have hd := congrArg String.data h
  rw [reqId, String.data_append] at hd
  simp at hd

/-!
Connection manager and request/response correlator (src/background.js,
module-level state around lines 200-330).  Promise identities live in a
ledger `promises`; `requestPromises` maps a request id to the promise id of
the `callNativeHost` invocation that registered it (the JS object stores
the resolve/reject pair of exactly that promise).  `connectNativeCalls`
counts invocations of `chrome.runtime.connectNative` (the "open channel"
collaborator).  The body of `connectToNativeHost` runs synchronously
through its promise executor (connectNative returns, listeners attach, the
status flips to CONNECTED, resolve() fires), so it is one atomic step.
-/

/-- Connection status enumeration of src/background.js. -/
inductive ConnStatus where
  | DISCONNECTED
  | CONNECTING
  | CONNECTED
deriving DecidableEq, Repr

/-- A request promise fulfils with a response object; the connection
promise fulfils with no value (`resolve()`), embedded as `none`. -/
abbrev NhVal := Option Obj

/-- Module-level mutable state of the connection manager. -/
structure ConnState where
  connectionStatus : ConnStatus
  requestPromises : List (String × Nat)
  requestIdCounter : Nat
  nativePort : Bool
  connectionPromise : Option Nat
  promises : List (Nat × PromState NhVal)
  nextPromiseId : Nat
  connectNativeCalls : Nat
deriving Repr

/-- State at service-worker start. -/
def initConnState : ConnState :=
  { connectionStatus := .DISCONNECTED, requestPromises := [],
    requestIdCounter := 0, nativePort := false, connectionPromise := none,
    promises := [], nextPromiseId := 0, connectNativeCalls := 0 }

/-- The `connectToNativeHost` function, one atomic step (its promise
executor runs synchronously to completion: the guard, the connectNative
call, the optimistic flip to CONNECTED and the resolve()).  Returns the
connection promise the caller will await. -/
def connectToNativeHost (s : ConnState) : ConnState × Option Nat :=
  if s.connectionStatus ≠ .DISCONNECTED then
    (s, s.connectionPromise)
  else
    ({ s with connectionStatus := .CONNECTED,
              nativePort := true,
              connectNativeCalls := s.connectNativeCalls + 1,
              connectionPromise := some s.nextPromiseId,
              promises := (s.nextPromiseId, .fulfilled none) :: s.promises,
              nextPromiseId := s.nextPromiseId + 1 }, some s.nextPromiseId)

/-- Default text when `chrome.runtime.lastError` carries no message. -/
def errMsgOf : Option String → String
  | some m => m
  | none => "Native host disconnected."

/-- Rejection message used for every pending request on disconnect. -/
def disconnectedMsg (err : Option String) : String :=
  "Native host disconnected: " ++ errMsgOf err

/-- Fold of the `for (const id in requestPromises)` loop of the
onDisconnect listener: rejects each stored pair. -/
def rejectAll (entries : List (String × Nat)) (m : String)
    (ps : List (Nat × PromState NhVal)) : List (Nat × PromState NhVal) :=
  match entries with
  | [] => ps
  | (_, p) :: rest => rejectAll rest m (settleProm ps p (.rejected m))

/-- The onDisconnect listener of src/background.js: reject every pending
request, drop the port handle, return to DISCONNECTED, clear the
pending-request map, and reject the connection promise (a no-op when that
promise already resolved). -/
def onDisconnect (err : Option String) (s : ConnState) : ConnState :=
  let ps1 := rejectAll s.requestPromises (disconnectedMsg err) s.promises
  let ps2 := match s.connectionPromise with
             | some cp => settleProm ps1 cp (.rejected (errMsgOf err))
             | none => ps1
  { s with promises := ps2, nativePort := false,
           connectionStatus := .DISCONNECTED, requestPromises := [] }

/-- Outcome of the onMessage listener on one inbound message. -/
inductive MsgOutcome where
  | resolvedReq (p : Nat) (payload : Obj)
  | unsolicitedExit (payload : Obj)
  | warned
deriving DecidableEq, Repr

/-- Branch taken when the message carries no usable correlation id:
dispatch `action === "mpv_exited"` to the unsolicited handler, otherwise
log a warning and discard. -/
def unsolicitedDispatch (responseData : Obj) (s : ConnState) :
    ConnState × MsgOutcome :=
  if lookupField responseData "action" = some (JVal.str "mpv_exited") then
    (s, .unsolicitedExit responseData)
  else
    (s, .warned)

/-- The nativePort.onMessage listener: destructure `request_id` out of the
response; when it is truthy and matches a stored pair, resolve that pair
with the remaining payload and delete the entry; otherwise route as an
unsolicited message. -/
def onMessage (resp : Obj) (s : ConnState) : ConnState × MsgOutcome :=
  match lookupField resp "request_id" with
  | some v =>
    if truthy v then
      match lookupAssoc s.requestPromises (keyOf v) with
      | some p =>
        ({ s with
            promises := settleProm s.promises p
              (.fulfilled (some (removeField resp "request_id"))),
            requestPromises := eraseKey s.requestPromises (keyOf v) },
         .resolvedReq p (removeField resp "request_id"))
      | none => unsolicitedDispatch (removeField resp "request_id") s
    else unsolicitedDispatch (removeField resp "request_id") s
  | none => unsolicitedDispatch (removeField resp "request_id") s

/-- The synchronous send slice of `callNativeHost` after the connection is
ready: allocate the caller promise, generate `req_` + counter
(post-increment), store the pair, merge the id into the outbound message.
Returns (state, caller promise id, wire message). -/
def doSend (msg : Obj) (s : ConnState) : ConnState × Nat × Obj :=
  let callerP := s.nextPromiseId
  let rid := reqId s.requestIdCounter
  ({ s with nextPromiseId := callerP + 1,
            promises := (callerP, .pending) :: s.promises,
            requestIdCounter := s.requestIdCounter + 1,
            requestPromises := (rid, callerP) :: s.requestPromises },
   callerP,
   removeField msg "request_id" ++ [("request_id", JVal.str rid)])

/-- Error text of the catch branch around `nativePort.postMessage`. -/
def sendFailMsg (e : String) : String :=
  "Failed to send message to native host. It may have disconnected. Error: " ++ e

/-- Send slice in which `postMessage` throws: the entry is registered,
then the caller promise is rejected and the entry deleted. -/
def doSendFail (msg : Obj) (e : String) (s : ConnState) : ConnState × Nat :=
  let r := doSend msg s
  let callerP := r.2.1
  let rid := reqId s.requestIdCounter
  ({ r.1 with
      promises := settleProm r.1.promises callerP (.rejected (sendFailMsg e)),
      requestPromises := eraseKey r.1.requestPromises rid },
   callerP)

/-- Events the connection manager reacts to, each one atomic slice. -/
inductive ConnEvent where
  | call (msg : Obj)
  | callFail (msg : Obj) (e : String)
  | recv (resp : Obj)
  | disc (err : Option String)

/-- One step of the connection manager. -/
def connStep (s : ConnState) : ConnEvent → ConnState
  | .call msg => (doSend msg s).1
  | .callFail msg e => (doSendFail msg e s).1
  | .recv resp => (onMessage resp s).1
  | .disc err => onDisconnect err s

/-- Request ids handed out along a trace of events (one per send slice,
whether or not the postMessage afterwards succeeds). -/
def assignedIds (s : ConnState) : List ConnEvent → List String
  | [] => []
  | e :: evs =>
    match e with
    | .call _ => reqId s.requestIdCounter :: assignedIds (connStep s e) evs
    | .callFail _ _ => reqId s.requestIdCounter :: assignedIds (connStep s e) evs
    | _ => assignedIds (connStep s e) evs

/-- Invariant of the correlator state: pending keys are distinct, each key
is `req_k` for a counter value below the current one, promise ids stored
for pending requests and for the connection promise are below the
allocator, and no pending request shares its promise with the connection
promise. -/
structure ConnInv (s : ConnState) : Prop where
  keysNodup : (s.requestPromises.map Prod.fst).Nodup
  keysForm : ∀ kv ∈ s.requestPromises, ∃ k, k < s.requestIdCounter ∧ kv.1 = reqId k
  valsLt : ∀ kv ∈ s.requestPromises, kv.2 < s.nextPromiseId
  connLt : ∀ cp, s.connectionPromise = some cp → cp < s.nextPromiseId
  connNotVal : ∀ kv ∈ s.requestPromises, ∀ cp, s.connectionPromise = some cp → kv.2 ≠ cp

theorem mem_of_mem_eraseKey {α β : Type} [DecidableEq α]
    {l : List (α × β)} {k : α} {kv : α × β} (h : kv ∈ eraseKey l k) :
    kv ∈ l :=
  (List.mem_filter.mp h).1

theorem map_fst_eraseKey_nodup {α β : Type} [DecidableEq α]
    {l : List (α × β)} (h : (l.map Prod.fst).Nodup) (k : α) :
    ((eraseKey l k).map Prod.fst).Nodup :=
  h.sublist ((List.filter_sublist l).map Prod.fst)

theorem connInv_init : ConnInv initConnState := by
  constructor <;> simp [initConnState]

theorem connInv_connect {s : ConnState} (h : ConnInv s) :
    ConnInv (connectToNativeHost s).1 := by
  unfold connectToNativeHost
  by_cases hc : s.connectionStatus ≠ ConnStatus.DISCONNECTED
  · rw [if_pos hc]; exact h
  · rw [if_neg hc]
    refine ⟨h.keysNodup, h.keysForm, ?_, ?_, ?_⟩
    · intro kv hm
      exact Nat.lt_succ_of_lt (h.valsLt kv hm)
    · intro cp hcp
      have hcp2 : cp = s.nextPromiseId := (Option.some.inj hcp).symm
      show cp < s.nextPromiseId + 1
      omega
    · intro kv hm cp hcp
      have hcp2 : cp = s.nextPromiseId := (Option.some.inj hcp).symm
      have hv := h.valsLt kv hm
      omega

theorem connInv_doSend {s : ConnState} (msg : Obj) (h : ConnInv s) :
    ConnInv (doSend msg s).1 := by
  refine ⟨?_, ?_, ?_, ?_, ?_⟩
  · simp only [doSend, List.map_cons]
    refine List.Nodup.cons ?_ h.keysNodup
    intro hmem
    obtain ⟨kv, hkv, hfst⟩ := List.mem_map.mp hmem
    obtain ⟨k, hk, hform⟩ := h.keysForm kv hkv
    rw [hform] at hfst
    have := reqId_injective hfst
    omega
  · intro kv hm
    simp only [doSend, List.mem_cons] at hm
    rcases hm with hm | hm
    · subst hm
      exact ⟨s.requestIdCounter, by simp [doSend], rfl⟩
    · obtain ⟨k, hk, hform⟩ := h.keysForm kv hm
      exact ⟨k, by simp [doSend]; omega, hform⟩
  · intro kv hm
    simp only [doSend, List.mem_cons] at hm
    rcases hm with hm | hm
    · subst hm; simp [doSend]
    · have := h.valsLt kv hm
      simp [doSend]; omega
  · intro cp hcp
    simp only [doSend] at hcp
    have := h.connLt cp hcp
    simp [doSend]; omega
  · intro kv hm cp hcp
    simp only [doSend, List.mem_cons] at hm hcp
    have hlt := h.connLt cp hcp
    rcases hm with hm | hm
    · subst hm; simp; omega
    · exact h.connNotVal kv hm cp hcp

theorem connInv_doSendFail {s : ConnState} (msg : Obj) (e : String)
    (h : ConnInv s) : ConnInv (doSendFail msg e s).1 := by
  have h1 := connInv_doSend msg h
  refine ⟨?_, ?_, ?_, ?_, ?_⟩
  · exact map_fst_eraseKey_nodup h1.keysNodup _
  · intro kv hm
    have := h1.keysForm kv (mem_of_mem_eraseKey hm)
    simpa [doSendFail, doSend] using this
  · intro kv hm
    have := h1.valsLt kv (mem_of_mem_eraseKey hm)
    simpa [doSendFail, doSend] using this
  · intro cp hcp
    have := h1.connLt cp (by simpa [doSendFail, doSend] using hcp)
    simpa [doSendFail, doSend] using this
  · intro kv hm cp hcp
    exact h1.connNotVal kv (mem_of_mem_eraseKey hm) cp
      (by simpa [doSendFail, doSend] using hcp)

theorem unsolicitedDispatch_fst (o : Obj) (s : ConnState) :
    (unsolicitedDispatch o s).1 = s := by
  unfold unsolicitedDispatch
  split <;> rfl

theorem onMessage_no_id (resp : Obj) (s : ConnState)
    (hv : lookupField resp "request_id" = none) :
    onMessage resp s = unsolicitedDispatch (removeField resp "request_id") s := by
  unfold onMessage
  rw [hv]

theorem onMessage_falsy_id (resp : Obj) (s : ConnState) (v : JVal)
    (hv : lookupField resp "request_id" = some v) (ht : truthy v = false) :
    onMessage resp s = unsolicitedDispatch (removeField resp "request_id") s := by
  unfold onMessage
  rw [hv]
  simp [ht]

theorem onMessage_unmatched_id (resp : Obj) (s : ConnState) (v : JVal)
    (hv : lookupField resp "request_id" = some v) (ht : truthy v = true)
    (hl : lookupAssoc s.requestPromises (keyOf v) = none) :
    onMessage resp s = unsolicitedDispatch (removeField resp "request_id") s := by
  unfold onMessage
  rw [hv]
  simp [ht, hl]

theorem onMessage_matched (resp : Obj) (s : ConnState) (v : JVal) (p : Nat)
    (hv : lookupField resp "request_id" = some v) (ht : truthy v = true)
    (hl : lookupAssoc s.requestPromises (keyOf v) = some p) :
    onMessage resp s =
      ({ s with
          promises := settleProm s.promises p
            (.fulfilled (some (removeField resp "request_id"))),
          requestPromises := eraseKey s.requestPromises (keyOf v) },
       .resolvedReq p (removeField resp "request_id")) := by
  unfold onMessage
  rw [hv]
  simp [ht, hl]

theorem connInv_onMessage {s : ConnState} (resp : Obj) (h : ConnInv s) :
    ConnInv (onMessage resp s).1 := by
  cases hv : lookupField resp "request_id" with
  | none => rw [onMessage_no_id resp s hv, unsolicitedDispatch_fst]; exact h
  | some v =>
    cases ht : truthy v with
    | false => rw [onMessage_falsy_id resp s v hv ht, unsolicitedDispatch_fst]; exact h
    | true =>
      cases hl : lookupAssoc s.requestPromises (keyOf v) with
      | none => rw [onMessage_unmatched_id resp s v hv ht hl, unsolicitedDispatch_fst]; exact h
      | some p =>
        rw [onMessage_matched resp s v p hv ht hl]
        exact ⟨map_fst_eraseKey_nodup h.keysNodup _,
          fun kv hm => h.keysForm kv (mem_of_mem_eraseKey hm),
          fun kv hm => h.valsLt kv (mem_of_mem_eraseKey hm),
          h.connLt,
          fun kv hm cp hcp => h.connNotVal kv (mem_of_mem_eraseKey hm) cp hcp⟩

theorem connInv_onDisconnect {s : ConnState} (err : Option String)
    (h : ConnInv s) : ConnInv (onDisconnect err s) := by
  refine ⟨?_, ?_, ?_, ?_, ?_⟩ <;> simp [onDisconnect]
  intro cp hcp
  exact h.connLt cp hcp

theorem connInv_connStep {s : ConnState} (e : ConnEvent) (h : ConnInv s) :
    ConnInv (connStep s e) := by
  cases e with
  | call msg => exact connInv_doSend msg h
  | callFail msg em => exact connInv_doSendFail msg em h
  | recv resp => exact connInv_onMessage resp h
  | disc err => exact connInv_onDisconnect err h

theorem counter_le_connStep (s : ConnState) (e : ConnEvent) :
    s.requestIdCounter ≤ (connStep s e).requestIdCounter := by
  cases e with
  | call msg => simp [connStep, doSend]
  | callFail msg em => simp [connStep, doSendFail, doSend]
  | recv resp =>
    simp only [connStep]
    cases hv : lookupField resp "request_id" with
    | none => rw [onMessage_no_id resp s hv, unsolicitedDispatch_fst]
    | some v =>
      cases ht : truthy v with
      | false => rw [onMessage_falsy_id resp s v hv ht, unsolicitedDispatch_fst]
      | true =>
        cases hl : lookupAssoc s.requestPromises (keyOf v) with
        | none => rw [onMessage_unmatched_id resp s v hv ht hl, unsolicitedDispatch_fst]
        | some p => rw [onMessage_matched resp s v p hv ht hl]
  | disc err => simp [connStep, onDisconnect]

theorem assignedIds_lower_bound (evs : List ConnEvent) : ∀ (s : ConnState),
    ∀ i ∈ assignedIds s evs, ∃ k, s.requestIdCounter ≤ k ∧ i = reqId k := by
  induction evs with
  | nil => intro s i hi; simp [assignedIds] at hi
  | cons e evs ih =>
    intro s i hi
    have hmono := counter_le_connStep s e
    cases e with
    | call msg =>
      simp only [assignedIds, List.mem_cons] at hi
      rcases hi with hi | hi
      · exact ⟨s.requestIdCounter, Nat.le_refl _, hi⟩
      · obtain ⟨k, hk, hik⟩ := ih (connStep s (.call msg)) i hi
        exact ⟨k, Nat.le_trans hmono hk, hik⟩
    | callFail msg em =>
      simp only [assignedIds, List.mem_cons] at hi
      rcases hi with hi | hi
      · exact ⟨s.requestIdCounter, Nat.le_refl _, hi⟩
      · obtain ⟨k, hk, hik⟩ := ih (connStep s (.callFail msg em)) i hi
        exact ⟨k, Nat.le_trans hmono hk, hik⟩
    | recv resp =>
      obtain ⟨k, hk, hik⟩ := ih (connStep s (.recv resp)) i (by simpa [assignedIds] using hi)
      exact ⟨k, Nat.le_trans hmono hk, hik⟩
    | disc err =>
      obtain ⟨k, hk, hik⟩ := ih (connStep s (.disc err)) i (by simpa [assignedIds] using hi)
      exact ⟨k, Nat.le_trans hmono hk, hik⟩

theorem assignedIds_nodup (evs : List ConnEvent) : ∀ s : ConnState,
    (assignedIds s evs).Nodup := by
  induction evs with
  | nil => intro s; simp [assignedIds]
  | cons e evs ih =>
    intro s
    cases e with
    | call msg =>
      refine List.Nodup.cons ?_ (ih _)
      intro hmem
      obtain ⟨k, hk, hik⟩ := assignedIds_lower_bound evs _ _ hmem
      have hc : (connStep s (.call msg)).requestIdCounter = s.requestIdCounter + 1 := by
        simp [connStep, doSend]
      rw [hc] at hk
      have := reqId_injective hik
      omega
    | callFail msg em =>
      refine List.Nodup.cons ?_ (ih _)
      intro hmem
      obtain ⟨k, hk, hik⟩ := assignedIds_lower_bound evs _ _ hmem
      have hc : (connStep s (.callFail msg em)).requestIdCounter = s.requestIdCounter + 1 := by
        simp [connStep, doSendFail, doSend]
      rw [hc] at hk
      have := reqId_injective hik
      omega
    | recv resp => simpa [assignedIds] using ih (connStep s (.recv resp))
    | disc err => simpa [assignedIds] using ih (connStep s (.disc err))

theorem rejectAll_cons (rid : String) (p : Nat) (rest : List (String × Nat))
    (m : String) (ps : List (Nat × PromState NhVal)) :
    rejectAll ((rid, p) :: rest) m ps =
      rejectAll rest m (settleProm ps p (.rejected m)) := rfl

theorem rejectAll_keeps_settled (entries : List (String × Nat)) (m : String) :
    ∀ (ps : List (Nat × PromState NhVal)) (p : Nat) (st : PromState NhVal),
    lookupAssoc ps p = some st → st ≠ .pending →
    lookupAssoc (rejectAll entries m ps) p = some st := by
  induction entries with
  | nil => intro ps p st h _; exact h
  | cons e rest ih =>
    intro ps p st h hst
    obtain ⟨rid, q⟩ := e
    rw [rejectAll_cons]
    by_cases hq : q = p
    · subst hq
      exact ih _ _ st (lookupAssoc_settleProm_settled _ _ _ st h hst) hst
    · refine ih _ p st ?_ hst
      rw [lookupAssoc_settleProm_ne ps q p _ (fun hc => hq hc.symm)]
      exact h

theorem rejectAll_rejects (entries : List (String × Nat)) (m : String) :
    ∀ (ps : List (Nat × PromState NhVal)) (rid : String) (p : Nat),
    (rid, p) ∈ entries → lookupAssoc ps p = some .pending →
    lookupAssoc (rejectAll entries m ps) p = some (.rejected m) := by
  induction entries with
  | nil => intro ps rid p hmem _; cases hmem
  | cons e rest ih =>
    intro ps rid p hmem hp
    obtain ⟨rid2, q⟩ := e
    rw [rejectAll_cons]
    by_cases hq : q = p
    · subst hq
      exact rejectAll_keeps_settled rest m _ q _
        (lookupAssoc_settleProm_pending ps q (.rejected m) hp) (by simp)
    · rcases List.mem_cons.mp hmem with hhead | htail
      · have hpq : p = q := congrArg Prod.snd hhead
        exact absurd hpq.symm hq
      · refine ih _ rid p htail ?_
        rw [lookupAssoc_settleProm_ne ps q p _ (fun hc => hq hc.symm)]
        exact hp

theorem rejectAll_not_touched (entries : List (String × Nat)) (m : String) :
    ∀ (ps : List (Nat × PromState NhVal)) (q : Nat),
    (∀ e ∈ entries, e.2 ≠ q) →
    lookupAssoc (rejectAll entries m ps) q = lookupAssoc ps q := by
  induction entries with
  | nil => intro ps q _; rfl
  | cons e rest ih =>
    intro ps q h
    obtain ⟨rid, p⟩ := e
    have hne : p ≠ q := h (rid, p) (List.mem_cons_self _ _)
    rw [rejectAll_cons, ih _ q (fun e he => h e (List.mem_cons_of_mem _ he)),
      lookupAssoc_settleProm_ne ps p q _ (fun hc => hne hc.symm)]

/-!
Reconnect-on-demand: the check at the top of `ensureConnectedAndSend`
inside `callNativeHost` (`if (connectionStatus !== CONNECTED) await
connectToNativeHost()`).  Each caller runs this check and the possible
`connectToNativeHost` call in one synchronous slice; what a caller awaits
is recorded as its outcome.
-/

/-- What one caller observed: it awaited a connection promise returned by
`connectToNativeHost`, or found the connection already CONNECTED and sent
straight away. -/
inductive EnsureOutcome where
  | awaited (cp : Option Nat)
  | noWait
deriving DecidableEq, Repr

/-- The connection-check slice of one `callNativeHost` invocation. -/
def ensureConnected (s : ConnState) : ConnState × EnsureOutcome :=
  if s.connectionStatus ≠ .CONNECTED then
    ((connectToNativeHost s).1, .awaited (connectToNativeHost s).2)
  else (s, .noWait)

/-- n callers running their connection-check slices back to back (the
interleaving JavaScript produces for concurrent invocations: each slice is
atomic on the single thread). -/
def ensureRun (s : ConnState) : Nat → ConnState × List EnsureOutcome
  | 0 => (s, [])
  | n + 1 =>
    ((ensureRun (ensureConnected s).1 n).1,
     (ensureConnected s).2 :: (ensureRun (ensureConnected s).1 n).2)

theorem connectToNativeHost_stable (s : ConnState)
    (h : s.connectionStatus ≠ .DISCONNECTED) :
    connectToNativeHost s = (s, s.connectionPromise) := by
  unfold connectToNativeHost
  rw [if_pos h]

theorem ensureRun_connected (n : Nat) : ∀ s : ConnState,
    s.connectionStatus = .CONNECTED →
    ensureRun s n = (s, List.replicate n .noWait) := by
  induction n with
  | zero => intro s _; rfl
  | succ n ih =>
    intro s h
    have he : ensureConnected s = (s, .noWait) := by
      unfold ensureConnected
      rw [if_neg (by rw [h]; exact fun hc => hc rfl)]
    simp [ensureRun, he, ih s h, List.replicate_succ]

theorem lookupAssoc_append_right {α β : Type} [DecidableEq α]
    (l1 l2 : List (α × β)) (k : α) (h : lookupAssoc l1 k = none) :
    lookupAssoc (l1 ++ l2) k = lookupAssoc l2 k := by
  induction l1 with
  | nil => rfl
  | cons e rest ih =>
    obtain ⟨a, b⟩ := e
    rw [lookupAssoc_cons] at h
    by_cases ha : a = k
    · rw [if_pos ha] at h; cases h
    · rw [if_neg ha] at h
      rw [List.cons_append, lookupAssoc_cons, if_neg ha]
      exact ih h

/-- The envelope produced by the final catch handler of `callNativeHost`:
`return \x7b success: false, error: errorMessage \x7d`. -/
def failureEnvelope (e : String) : Obj :=
  [("success", JVal.bool false),
   ("error", JVal.str ("Could not communicate with native host. Error: " ++ e))]

/-- What the awaiting caller of `callNativeHost` receives once the inner
promise settles, after the trailing `.then`/`.catch` pair: a fulfilled
response is passed through, a rejection becomes the failure envelope.
A request promise only ever fulfils with a response object, so the
`none` (resolve with no value) branch is unreachable for it; it is given
the JS value of an empty object. -/
def settleToCallResult : PromState NhVal → Option Obj
  | .pending => none
  | .fulfilled v => some (v.getD [])
  | .rejected e => some (failureEnvelope e)

/-- C1.  Every `callNativeHost` invocation is assigned a distinct request
id of the form `req_` + counter (the ids handed out along any event trace
are pairwise distinct, and the outbound wire message carries the id); an
inbound response whose correlation id matches a stored pending request
resolves exactly that request's promise with the payload minus the
`request_id` field, deletes the pending entry, and leaves every other
pending promise untouched. -/
theorem nativeHost_request_id_isolation (s : ConnState) (evs : List ConnEvent)
    (msg resp : Obj) (rid : String) (p : Nat) (hinv : ConnInv s)
    (hrid : lookupField resp "request_id" = some (JVal.str rid))
    (hreg : lookupAssoc s.requestPromises rid = some p)
    (hpend : lookupAssoc s.promises p = some .pending) :
    (assignedIds s evs).Nodup
    ∧ lookupField (doSend msg s).2.2 "request_id"
        = some (JVal.str (reqId s.requestIdCounter))
    ∧ (onMessage resp s).2
        = MsgOutcome.resolvedReq p (removeField resp "request_id")
    ∧ lookupAssoc (onMessage resp s).1.promises p
        = some (PromState.fulfilled (some (removeField resp "request_id")))
    ∧ lookupAssoc (onMessage resp s).1.requestPromises rid = none
    ∧ (∀ q, q ≠ p → lookupAssoc s.promises q = some .pending →
        lookupAssoc (onMessage resp s).1.promises q = some .pending) := by
  obtain ⟨k, hk, hform⟩ := hinv.keysForm (rid, p) (lookupAssoc_mem hreg)
  have hne : rid ≠ "" := by
    intro hc
    exact reqId_ne_empty k (by rw [← hform, hc])
  have ht : truthy (JVal.str rid) = true := by
    simp [truthy]
    exact hne
  have hr := onMessage_matched resp s (JVal.str rid) p hrid ht hreg
  refine ⟨assignedIds_nodup evs s, ?_, ?_, ?_, ?_, ?_⟩
  · show lookupAssoc (eraseKey msg "request_id" ++
      [("request_id", JVal.str (reqId s.requestIdCounter))]) "request_id"
      = some (JVal.str (reqId s.requestIdCounter))
    rw [lookupAssoc_append_right _ _ _ (lookupAssoc_eraseKey_self msg "request_id")]
    simp [lookupAssoc]
  · rw [hr]
  · rw [hr]
    exact lookupAssoc_settleProm_pending s.promises p _ hpend
  · rw [hr]
    exact lookupAssoc_eraseKey_self s.requestPromises rid
  · intro q hq hqpend
    rw [hr]
    show lookupAssoc (settleProm s.promises p _) q = some .pending
    rw [lookupAssoc_settleProm_ne s.promises p q _ hq]
    exact hqpend

/-- C2.  When the disconnect notification fires, every pending request
promise is rejected with the "Native host disconnected: ..." error, the
pending-request map is emptied, the port handle is discarded, the state
returns to DISCONNECTED, and a still-pending connection-establishment
promise is rejected with the disconnect reason. -/
theorem nativeHost_disconnect_rejects_pending (s : ConnState)
    (err : Option String) (hinv : ConnInv s) :
    (onDisconnect err s).requestPromises = []
    ∧ (onDisconnect err s).connectionStatus = ConnStatus.DISCONNECTED
    ∧ (onDisconnect err s).nativePort = false
    ∧ (∀ rid p, (rid, p) ∈ s.requestPromises →
        lookupAssoc s.promises p = some .pending →
        lookupAssoc (onDisconnect err s).promises p
          = some (PromState.rejected (disconnectedMsg err)))
    ∧ (∀ cp, s.connectionPromise = some cp →
        lookupAssoc s.promises cp = some .pending →
        lookupAssoc (onDisconnect err s).promises cp
          = some (PromState.rejected (errMsgOf err))) := by
  refine ⟨rfl, rfl, rfl, ?_, ?_⟩
  · intro rid p hm hp
    show lookupAssoc
      (match s.connectionPromise with
       | some cp => settleProm
           (rejectAll s.requestPromises (disconnectedMsg err) s.promises) cp
           (.rejected (errMsgOf err))
       | none => rejectAll s.requestPromises (disconnectedMsg err) s.promises) p
      = some (PromState.rejected (disconnectedMsg err))
    cases hcp : s.connectionPromise with
    | none =>
      exact rejectAll_rejects s.requestPromises _ s.promises rid p hm hp
    | some cp =>
      have hpcp : p ≠ cp := hinv.connNotVal (rid, p) hm cp hcp
      rw [lookupAssoc_settleProm_ne _ cp p _ hpcp]
      exact rejectAll_rejects s.requestPromises _ s.promises rid p hm hp
  · intro cp hcp hp
    show lookupAssoc
      (match s.connectionPromise with
       | some cp => settleProm
           (rejectAll s.requestPromises (disconnectedMsg err) s.promises) cp
           (.rejected (errMsgOf err))
       | none => rejectAll s.requestPromises (disconnectedMsg err) s.promises) cp
      = some (PromState.rejected (errMsgOf err))
    rw [hcp]
    have hnotv : ∀ e ∈ s.requestPromises, e.2 ≠ cp :=
      fun e he => hinv.connNotVal e he cp hcp
    refine lookupAssoc_settleProm_pending _ cp _ ?_
    rw [rejectAll_not_touched s.requestPromises _ s.promises cp hnotv]
    exact hp

/-- The state `connectToNativeHost` leaves behind when it actually opens
the channel (synchronously through its executor, ending CONNECTED). -/
def connectedState (s : ConnState) : ConnState :=
  { s with connectionStatus := .CONNECTED,
           nativePort := true,
           connectNativeCalls := s.connectNativeCalls + 1,
           connectionPromise := some s.nextPromiseId,
           promises := (s.nextPromiseId, .fulfilled none) :: s.promises,
           nextPromiseId := s.nextPromiseId + 1 }

theorem connectToNativeHost_of_disconnected (s : ConnState)
    (hd : s.connectionStatus = .DISCONNECTED) :
    connectToNativeHost s = (connectedState s, some s.nextPromiseId) := by
  unfold connectToNativeHost
  rw [if_neg (fun hc => hc hd)]
  rfl

/-- C3.  If n + 1 `callNativeHost` invocations run their connection-check
slices while the state is DISCONNECTED, exactly one `connectNative` open
happens: the first caller opens the channel and awaits the freshly stored
connection promise, every later caller finds it CONNECTED, and a call to
`connectToNativeHost` while an attempt exists returns the stored
connection promise without opening another channel. -/
theorem nativeHost_single_connection_attempt (s : ConnState) (n : Nat)
    (hd : s.connectionStatus = .DISCONNECTED) :
    (ensureRun s (n + 1)).1.connectNativeCalls = s.connectNativeCalls + 1
    ∧ (ensureRun s (n + 1)).2
        = EnsureOutcome.awaited (some s.nextPromiseId)
          :: List.replicate n EnsureOutcome.noWait
    ∧ (ensureRun s (n + 1)).1.connectionStatus = ConnStatus.CONNECTED
    ∧ (ensureRun s (n + 1)).1.connectionPromise = some s.nextPromiseId
    ∧ (∀ s' : ConnState, s'.connectionStatus ≠ ConnStatus.DISCONNECTED →
        connectToNativeHost s' = (s', s'.connectionPromise)) := by
  have hne : s.connectionStatus ≠ ConnStatus.CONNECTED := by
    rw [hd]; intro hc; cases hc
  have he : ensureConnected s
      = (connectedState s, .awaited (some s.nextPromiseId)) := by
    unfold ensureConnected
    rw [if_pos hne, connectToNativeHost_of_disconnected s hd]
  have hrun : ensureRun (connectedState s) n
      = (connectedState s, List.replicate n .noWait) :=
    ensureRun_connected n _ rfl
  have hfull : ensureRun s (n + 1)
      = (connectedState s,
         EnsureOutcome.awaited (some s.nextPromiseId)
           :: List.replicate n EnsureOutcome.noWait) := by
    show ((ensureRun (ensureConnected s).1 n).1,
      (ensureConnected s).2 :: (ensureRun (ensureConnected s).1 n).2) = _
    rw [he]
    simp [hrun]
  exact ⟨by rw [hfull]; rfl, by rw [hfull], by rw [hfull]; rfl, by rw [hfull]; rfl,
    fun s' h => connectToNativeHost_stable s' h⟩

/-- C7.  Host-call failures never escape to the caller as exceptions: a
rejection of the inner promise is converted by the final catch handler
into a fulfilled `\x7b success: false, error: string \x7d` envelope.  The
disconnect-while-pending path and the postMessage-throw path indeed leave
the caller promise rejected with an error string, which that handler then
converts; every settled state yields a result. -/
theorem callNativeHost_uniform_error_envelope (s : ConnState)
    (err : Option String) (msg : Obj) (em : String) (rid : String) (p : Nat)
    (hinv : ConnInv s) (hreg : (rid, p) ∈ s.requestPromises)
    (hpend : lookupAssoc s.promises p = some .pending) :
    (∀ e, settleToCallResult (.rejected e) = some (failureEnvelope e)
       ∧ lookupField (failureEnvelope e) "success" = some (JVal.bool false)
       ∧ lookupField (failureEnvelope e) "error"
           = some (JVal.str ("Could not communicate with native host. Error: " ++ e)))
    ∧ lookupAssoc (onDisconnect err s).promises p
        = some (PromState.rejected (disconnectedMsg err))
    ∧ lookupAssoc (doSendFail msg em s).1.promises s.nextPromiseId
        = some (PromState.rejected (sendFailMsg em))
    ∧ (∀ st : PromState NhVal, st ≠ .pending → (settleToCallResult st).isSome) := by
  refine ⟨?_, ?_, ?_, ?_⟩
  · intro e
    exact ⟨rfl, rfl, rfl⟩
  · show lookupAssoc
      (match s.connectionPromise with
       | some cp => settleProm
           (rejectAll s.requestPromises (disconnectedMsg err) s.promises) cp
           (.rejected (errMsgOf err))
       | none => rejectAll s.requestPromises (disconnectedMsg err) s.promises) p
      = some (PromState.rejected (disconnectedMsg err))
    cases hcp : s.connectionPromise with
    | none => exact rejectAll_rejects s.requestPromises _ s.promises rid p hreg hpend
    | some cp =>
      rw [lookupAssoc_settleProm_ne _ cp p _ (hinv.connNotVal (rid, p) hreg cp hcp)]
      exact rejectAll_rejects s.requestPromises _ s.promises rid p hreg hpend
  · show lookupAssoc
      (settleProm ((s.nextPromiseId, PromState.pending) :: s.promises)
        s.nextPromiseId (.rejected (sendFailMsg em))) s.nextPromiseId
      = some (PromState.rejected (sendFailMsg em))
    rw [settleProm_cons, if_pos rfl, lookupAssoc_cons, if_pos rfl]
    rfl
  · intro st hst
    cases st with
    | pending => exact absurd rfl hst
    | fulfilled v => rfl
    | rejected e => rfl

/-- Concrete message used by the witnesses. -/
def sampleMsg : Obj := [("action", JVal.str "play")]

/-- Fresh state after the first connect. -/
def sampleConnected : ConnState := (connectToNativeHost initConnState).1

/-- State with one pending request (id `req_0`, caller promise 1). -/
def sampleState : ConnState := (doSend sampleMsg sampleConnected).1

/-- A matching inbound response for the pending request. -/
def sampleResp : Obj :=
  [("request_id", JVal.str (reqId 0)), ("success", JVal.bool true)]

theorem sampleState_inv : ConnInv sampleState :=
  connInv_doSend sampleMsg (connInv_connect connInv_init)

/-- Witness for C1 at the concrete one-pending-request state. -/
theorem nativeHost_request_id_isolation_witness :
    lookupField sampleResp "request_id" = some (JVal.str (reqId 0))
    ∧ lookupAssoc sampleState.requestPromises (reqId 0) = some 1
    ∧ lookupAssoc sampleState.promises 1 = some PromState.pending
    ∧ (assignedIds sampleState [ConnEvent.recv sampleResp]).Nodup
    ∧ (onMessage sampleResp sampleState).2
        = MsgOutcome.resolvedReq 1 (removeField sampleResp "request_id")
    ∧ lookupAssoc (onMessage sampleResp sampleState).1.requestPromises (reqId 0)
        = none := by
  have h := nativeHost_request_id_isolation sampleState
    [ConnEvent.recv sampleResp] sampleMsg sampleResp (reqId 0) 1
    sampleState_inv (by decide) (by decide) (by decide)
  exact ⟨by decide, by decide, by decide, h.1, h.2.2.1, h.2.2.2.2.1⟩

/-- Witness for C2 at the concrete one-pending-request state. -/
theorem nativeHost_disconnect_rejects_pending_witness :
    (reqId 0, 1) ∈ sampleState.requestPromises
    ∧ lookupAssoc sampleState.promises 1 = some PromState.pending
    ∧ (onDisconnect (some "gone") sampleState).requestPromises = []
    ∧ (onDisconnect (some "gone") sampleState).connectionStatus
        = ConnStatus.DISCONNECTED
    ∧ lookupAssoc (onDisconnect (some "gone") sampleState).promises 1
        = some (PromState.rejected (disconnectedMsg (some "gone"))) := by
  have h := nativeHost_disconnect_rejects_pending sampleState (some "gone")
    sampleState_inv
  exact ⟨by decide, by decide, h.1, h.2.1,
    h.2.2.2.1 (reqId 0) 1 (by decide) (by decide)⟩

/-- Witness for C3: three concurrent callers from the fresh disconnected
state trigger exactly one channel open. -/
theorem nativeHost_single_connection_attempt_witness :
    initConnState.connectionStatus = ConnStatus.DISCONNECTED
    ∧ (ensureRun initConnState 3).1.connectNativeCalls
        = initConnState.connectNativeCalls + 1
    ∧ (ensureRun initConnState 3).2
        = EnsureOutcome.awaited (some initConnState.nextPromiseId)
          :: List.replicate 2 EnsureOutcome.noWait := by
  have h := nativeHost_single_connection_attempt initConnState 2 rfl
  exact ⟨rfl, h.1, h.2.1⟩

/-- Witness for C7 at the concrete one-pending-request state. -/
theorem callNativeHost_uniform_error_envelope_witness :
    (reqId 0, 1) ∈ sampleState.requestPromises
    ∧ lookupAssoc sampleState.promises 1 = some PromState.pending
    ∧ lookupField (failureEnvelope "boom") "success" = some (JVal.bool false)
    ∧ lookupAssoc (onDisconnect none sampleState).promises 1
        = some (PromState.rejected (disconnectedMsg none))
    ∧ lookupAssoc (doSendFail sampleMsg "pipe broke" sampleState).1.promises
        sampleState.nextPromiseId
        = some (PromState.rejected (sendFailMsg "pipe broke")) := by
  have h := callNativeHost_uniform_error_envelope sampleState none sampleMsg
    "pipe broke" (reqId 0) 1 sampleState_inv (by decide) (by decide)
  exact ⟨by decide, by decide, (h.1 "boom").2.1, h.2.1, h.2.2.1⟩

/-!
Stream-detection subsystem (src/background.js around lines 990-1140):
`_waitForM3u8Detection` registers a resolve/reject pair in
`m3u8DetectionPromises` keyed by the scanner tab id and arms a timer; the
`onHeadersReceived` observer, the timer callback and the `tabs.onRemoved`
listener race for the first settle.  Each wrapper clears the timer,
settles the promise and deletes the registry entry within one synchronous
slice, and promise continuations only run as later microtasks, so by the
time a continuation fires the entry is gone.  The detection promises
fulfil with the matched URL string.
-/

/-- State of the detection subsystem: the task registry
`m3u8DetectionPromises` (tab id to detection promise id), the
`lastDetectedUrls` cache, the promise ledger and the promise-id
allocator. -/
structure ScanState where
  tasks : List (Nat × Nat)
  lastDetectedUrls : List (Nat × String)
  promises : List (Nat × PromState String)
  nextProm : Nat
deriving Repr

/-- Detection-subsystem state at service-worker start. -/
def initScanState : ScanState :=
  { tasks := [], lastDetectedUrls := [], promises := [], nextProm := 0 }

/-- Timeout rejection message of `_waitForM3u8Detection`
(template literal with the configured duration). -/
def timeoutMsg (t : Nat) : String :=
  "M3U8 detection timed out after " ++ Nat.repr t ++ " seconds."

/-- Rejection message of the `tabs.onRemoved` listener. -/
def closedMsg : String := "Tab was closed before M3U8 detection completed."

/-- Registration slice of `_waitForM3u8Detection tabId timeoutInSeconds`:
store the resolve/reject wrappers under the tab id (a JS object key
assignment, so at most one task per tab id) and allocate the detection
promise.  The timer duration is captured by the timeout closure and
reappears as the argument of `fireTimeout`. -/
def startDetection (tabId : Nat) (s : ScanState) : ScanState × Nat :=
  ({ s with tasks := setAssoc s.tasks tabId s.nextProm,
            promises := (s.nextProm, .pending) :: s.promises,
            nextProm := s.nextProm + 1 }, s.nextProm)

/-- The timer callback: if the registry still holds an entry for the tab,
delete it and reject the promise `p0` captured by the closure with the
timeout message; otherwise do nothing. -/
def fireTimeout (tabId : Nat) (t : Nat) (p0 : Nat) (s : ScanState) : ScanState :=
  if (lookupAssoc s.tasks tabId).isSome then
    { s with tasks := eraseKey s.tasks tabId,
             promises := settleProm s.promises p0 (.rejected (timeoutMsg t)) }
  else s

/-- Downstream effect of a signature match in the observer. -/
inductive ScanEffect where
  | resolvedDetection (p : Nat) (url : String)
  | notifiedTab (tabId : Nat) (url : String)
deriving DecidableEq, Repr

/-- Dispatch part of the `onHeadersReceived` listener once the M3U8
signature matched (content type or `.m3u8` path): skip if the
Last-Detected-URL cache holds this very url for the tab (the check runs
before the task lookup); otherwise update the cache, then either resolve
a registered detection task (clearing its timer and deleting the entry)
or send a general notification to the tab. -/
def headersMatch (tabId : Nat) (url : String) (s : ScanState) :
    ScanState × Option ScanEffect :=
  if lookupAssoc s.lastDetectedUrls tabId = some url then
    (s, none)
  else
    match lookupAssoc s.tasks tabId with
    | some p =>
      ({ s with lastDetectedUrls := setAssoc s.lastDetectedUrls tabId url,
                tasks := eraseKey s.tasks tabId,
                promises := settleProm s.promises p (.fulfilled url) },
       some (.resolvedDetection p url))
    | none =>
      ({ s with lastDetectedUrls := setAssoc s.lastDetectedUrls tabId url },
       some (.notifiedTab tabId url))

/-- First half of the `tabs.onRemoved` listener: if a detection task is
registered for the closed tab, reject it through its wrapper (which also
deletes the registry entry and clears the timer). -/
def tabRemovedCore (tabId : Nat) (s : ScanState) : ScanState :=
  match lookupAssoc s.tasks tabId with
  | some p =>
    { s with tasks := eraseKey s.tasks tabId,
             promises := settleProm s.promises p (.rejected closedMsg) }
  | none => s

/-- Second half of the `tabs.onRemoved` listener: drop the cached url for
the closed tab (guarded by a JS truthiness check on the cached value). -/
def dropCache (tabId : Nat) (s : ScanState) : ScanState :=
  match lookupAssoc s.lastDetectedUrls tabId with
  | some u =>
    if truthy (JVal.str u) then
      { s with lastDetectedUrls := eraseKey s.lastDetectedUrls tabId }
    else s
  | none => s

/-- The `tabs.onRemoved` listener for one closed tab. -/
def tabRemoved (tabId : Nat) (s : ScanState) : ScanState :=
  dropCache tabId (tabRemovedCore tabId s)

/-- The three ways a detection for one tab can end. -/
inductive DetOutcome where
  | obsMatch (url : String)
  | timerFired (t : Nat)
  | tabClosed
deriving DecidableEq, Repr

/-- Apply one outcome event for tab `tabId` whose armed timer belongs to
detection promise `p`. -/
def applyOutcome (tabId p : Nat) : DetOutcome → ScanState → ScanState
  | .obsMatch url, s => (headersMatch tabId url s).1
  | .timerFired t, s => fireTimeout tabId t p s
  | .tabClosed, s => tabRemoved tabId s

/-- Settlement the first outcome is expected to produce. -/
def outcomeSettles : DetOutcome → PromState String
  | .obsMatch url => .fulfilled url
  | .timerFired t => .rejected (timeoutMsg t)
  | .tabClosed => .rejected closedMsg

theorem dropCache_promises (tabId : Nat) (s : ScanState) :
    (dropCache tabId s).promises = s.promises := by
  unfold dropCache
  cases hl : lookupAssoc s.lastDetectedUrls tabId with
  | none => rfl
  | some u =>
    show (if truthy (JVal.str u) = true then
        { s with lastDetectedUrls := eraseKey s.lastDetectedUrls tabId }
      else s).promises = s.promises
    by_cases hu : truthy (JVal.str u) = true
    · rw [if_pos hu]
    · rw [if_neg hu]

theorem dropCache_tasks (tabId : Nat) (s : ScanState) :
    (dropCache tabId s).tasks = s.tasks := by
  unfold dropCache
  cases hl : lookupAssoc s.lastDetectedUrls tabId with
  | none => rfl
  | some u =>
    show (if truthy (JVal.str u) = true then
        { s with lastDetectedUrls := eraseKey s.lastDetectedUrls tabId }
      else s).tasks = s.tasks
    by_cases hu : truthy (JVal.str u) = true
    · rw [if_pos hu]
    · rw [if_neg hu]

theorem tabRemovedCore_noTask (tabId : Nat) (s : ScanState)
    (ht : lookupAssoc s.tasks tabId = none) :
    tabRemovedCore tabId s = s := by
  unfold tabRemovedCore
  rw [ht]

theorem tabRemovedCore_withTask (tabId : Nat) (s : ScanState) (p : Nat)
    (ht : lookupAssoc s.tasks tabId = some p) :
    tabRemovedCore tabId s =
      { s with tasks := eraseKey s.tasks tabId,
               promises := settleProm s.promises p (.rejected closedMsg) } := by
  unfold tabRemovedCore
  rw [ht]

theorem headersMatch_cached (tabId : Nat) (url : String) (s : ScanState)
    (h : lookupAssoc s.lastDetectedUrls tabId = some url) :
    headersMatch tabId url s = (s, none) := by
  unfold headersMatch
  rw [if_pos h]

theorem headersMatch_withTask (tabId : Nat) (url : String) (s : ScanState)
    (p : Nat) (hc : ¬lookupAssoc s.lastDetectedUrls tabId = some url)
    (ht : lookupAssoc s.tasks tabId = some p) :
    headersMatch tabId url s =
      ({ s with lastDetectedUrls := setAssoc s.lastDetectedUrls tabId url,
                tasks := eraseKey s.tasks tabId,
                promises := settleProm s.promises p (.fulfilled url) },
       some (.resolvedDetection p url)) := by
  unfold headersMatch
  rw [if_neg hc, ht]

theorem headersMatch_noTask (tabId : Nat) (url : String) (s : ScanState)
    (hc : ¬lookupAssoc s.lastDetectedUrls tabId = some url)
    (ht : lookupAssoc s.tasks tabId = none) :
    headersMatch tabId url s =
      ({ s with lastDetectedUrls := setAssoc s.lastDetectedUrls tabId url },
       some (.notifiedTab tabId url)) := by
  unfold headersMatch
  rw [if_neg hc, ht]

theorem fireTimeout_noTask (tabId t p0 : Nat) (s : ScanState)
    (ht : lookupAssoc s.tasks tabId = none) :
    fireTimeout tabId t p0 s = s := by
  unfold fireTimeout
  rw [ht]
  rfl

theorem fireTimeout_withTask (tabId t p0 : Nat) (s : ScanState) (p : Nat)
    (ht : lookupAssoc s.tasks tabId = some p) :
    fireTimeout tabId t p0 s =
      { s with tasks := eraseKey s.tasks tabId,
               promises := settleProm s.promises p0 (.rejected (timeoutMsg t)) } := by
  unfold fireTimeout
  rw [ht]
  rfl

theorem headersMatch_promises_noTask (tabId : Nat) (url : String) (s : ScanState)
    (ht : lookupAssoc s.tasks tabId = none) :
    (headersMatch tabId url s).1.promises = s.promises := by
  by_cases hc : lookupAssoc s.lastDetectedUrls tabId = some url
  · rw [headersMatch_cached tabId url s hc]
  · rw [headersMatch_noTask tabId url s hc ht]

theorem tabRemoved_promises_noTask (tabId : Nat) (s : ScanState)
    (ht : lookupAssoc s.tasks tabId = none) :
    (tabRemoved tabId s).promises = s.promises := by
  unfold tabRemoved
  rw [tabRemovedCore_noTask tabId s ht, dropCache_promises]

/-- A second outcome event arriving after the task entry is gone leaves
the promise ledger untouched. -/
theorem applyOutcome_promises_noTask (tabId p : Nat) (e : DetOutcome)
    (s : ScanState) (ht : lookupAssoc s.tasks tabId = none) :
    (applyOutcome tabId p e s).promises = s.promises := by
  cases e with
  | obsMatch url => exact headersMatch_promises_noTask tabId url s ht
  | timerFired t => rw [applyOutcome, fireTimeout_noTask tabId t p s ht]
  | tabClosed => exact tabRemoved_promises_noTask tabId s ht

theorem not_mem_map_fst_eraseKey {α β : Type} [DecidableEq α]
    (l : List (α × β)) (k : α) : k ∉ (eraseKey l k).map Prod.fst := by
  intro hmem
  obtain ⟨e, he, hfst⟩ := List.mem_map.mp hmem
  have h2 := (List.mem_filter.mp he).2
  simp at h2
  exact h2 hfst

theorem setAssoc_fst_nodup {α β : Type} [DecidableEq α]
    (l : List (α × β)) (k : α) (v : β) (h : (l.map Prod.fst).Nodup) :
    ((setAssoc l k v).map Prod.fst).Nodup := by
  simp only [setAssoc, List.map_cons]
  exact List.Nodup.cons (not_mem_map_fst_eraseKey l k) (map_fst_eraseKey_nodup h k)

/-- First-outcome settlement: when a task for `tabId` with pending promise
`p` is registered, any one of the three outcomes removes the entry and
settles the promise accordingly. -/
theorem applyOutcome_settles (tabId p : Nat) (e : DetOutcome) (s : ScanState)
    (hreg : lookupAssoc s.tasks tabId = some p)
    (hpend : lookupAssoc s.promises p = some .pending)
    (hcache : ∀ url, e = .obsMatch url →
      ¬lookupAssoc s.lastDetectedUrls tabId = some url) :
    lookupAssoc (applyOutcome tabId p e s).tasks tabId = none
    ∧ lookupAssoc (applyOutcome tabId p e s).promises p
        = some (outcomeSettles e) := by
  cases e with
  | obsMatch url =>
    rw [applyOutcome, headersMatch_withTask tabId url s p (hcache url rfl) hreg]
    exact ⟨lookupAssoc_eraseKey_self s.tasks tabId,
      lookupAssoc_settleProm_pending s.promises p _ hpend⟩
  | timerFired t =>
    rw [applyOutcome, fireTimeout_withTask tabId t p s p hreg]
    exact ⟨lookupAssoc_eraseKey_self s.tasks tabId,
      lookupAssoc_settleProm_pending s.promises p _ hpend⟩
  | tabClosed =>
    show lookupAssoc (tabRemoved tabId s).tasks tabId = none
      ∧ lookupAssoc (tabRemoved tabId s).promises p = some (outcomeSettles .tabClosed)
    unfold tabRemoved
    rw [tabRemovedCore_withTask tabId s p hreg]
    rw [dropCache_tasks, dropCache_promises]
    exact ⟨lookupAssoc_eraseKey_self s.tasks tabId,
      lookupAssoc_settleProm_pending s.promises p _ hpend⟩

/-- Prefix test on character lists (used to state which error messages
mention which phrases). -/
def isPrefixOfChars : List Char → List Char → Bool
  | [], _ => true
  | _ :: _, [] => false
  | a :: as, b :: bs => a == b && isPrefixOfChars as bs

/-- Occurrence of `pat` as a contiguous run inside a character list. -/
def occursIn (pat : List Char) : List Char → Bool
  | [] => isPrefixOfChars pat []
  | c :: rest => isPrefixOfChars pat (c :: rest) || occursIn pat rest

theorem isPrefixOfChars_append (pat : List Char) : ∀ (l m : List Char),
    isPrefixOfChars pat l = true → isPrefixOfChars pat (l ++ m) = true := by
  induction pat with
  | nil => intro l m _; rfl
  | cons a as ih =>
    intro l m h
    cases l with
    | nil => cases h
    | cons c cs =>
      simp only [isPrefixOfChars, Bool.and_eq_true] at h
      simp only [List.cons_append, isPrefixOfChars, Bool.and_eq_true]
      exact ⟨h.1, ih cs m h.2⟩

theorem occursIn_nil_pat (l : List Char) : occursIn [] l = true := by
  induction l with
  | nil => rfl
  | cons c rest ih => simp [occursIn, isPrefixOfChars]

theorem occursIn_self_append (pat m : List Char) :
    occursIn pat (pat ++ m) = true := by
  cases pat with
  | nil => exact occursIn_nil_pat m
  | cons a as =>
    have hpre : isPrefixOfChars (a :: as) ((a :: as) ++ m) = true := by
      refine isPrefixOfChars_append (a :: as) (a :: as) m ?_
      induction as with
      | nil => simp [isPrefixOfChars]
      | cons b bs ih => simpa [isPrefixOfChars] using ih
    simp only [List.cons_append, occursIn, Bool.or_eq_true]
    exact Or.inl (by simpa using hpre)

theorem occursIn_append_right (l1 pat l : List Char)
    (h : occursIn pat l = true) : occursIn pat (l1 ++ l) = true := by
  induction l1 with
  | nil => exact h
  | cons c rest ih =>
    simp only [List.cons_append, occursIn, Bool.or_eq_true]
    exact Or.inr ih

theorem occursIn_append_left (pat l m : List Char)
    (h : occursIn pat l = true) : occursIn pat (l ++ m) = true := by
  induction l with
  | nil =>
    cases pat with
    | nil => exact occursIn_nil_pat m
    | cons a as => cases h
  | cons c rest ih =>
    simp only [occursIn, Bool.or_eq_true] at h
    simp only [List.cons_append, occursIn, Bool.or_eq_true]
    rcases h with h | h
    · exact Or.inl (by simpa using isPrefixOfChars_append pat (c :: rest) m h)
    · exact Or.inr (ih h)

/-- C4.  Detection outcomes for one tab are mutually exclusive: with a
task registered for the tab and its promise pending, the first of
\x7bobserver match, timeout, tab close\x7d removes the registry entry and
settles the promise, a second outcome leaves the promise exactly as the
first settled it (the settle steps are total functions, so no exception
arises), registration keeps registry keys unique (at most one task per
tab id), and every outcome preserves that uniqueness. -/
theorem detection_first_outcome_wins (s : ScanState) (tabId p : Nat)
    (e1 e2 : DetOutcome)
    (hreg : lookupAssoc s.tasks tabId = some p)
    (hpend : lookupAssoc s.promises p = some .pending)
    (hcache : ∀ url, e1 = .obsMatch url →
      ¬lookupAssoc s.lastDetectedUrls tabId = some url) :
    lookupAssoc (applyOutcome tabId p e1 s).tasks tabId = none
    ∧ lookupAssoc (applyOutcome tabId p e1 s).promises p
        = some (outcomeSettles e1)
    ∧ lookupAssoc (applyOutcome tabId p e2 (applyOutcome tabId p e1 s)).promises p
        = some (outcomeSettles e1)
    ∧ (∀ (l : List (Nat × Nat)) (t' v : Nat), (l.map Prod.fst).Nodup →
        ((setAssoc l t' v).map Prod.fst).Nodup)
    ∧ ((s.tasks.map Prod.fst).Nodup →
        ((applyOutcome tabId p e1 s).tasks.map Prod.fst).Nodup) := by
  obtain ⟨h1, h2⟩ := applyOutcome_settles tabId p e1 s hreg hpend hcache
  refine ⟨h1, h2, ?_, fun l t' v h => setAssoc_fst_nodup l t' v h, ?_⟩
  · rw [applyOutcome_promises_noTask tabId p e2 _ h1]
    exact h2
  · intro hnd
    cases e1 with
    | obsMatch url =>
      rw [applyOutcome, headersMatch_withTask tabId url s p (hcache url rfl) hreg]
      exact map_fst_eraseKey_nodup hnd tabId
    | timerFired t =>
      rw [applyOutcome, fireTimeout_withTask tabId t p s p hreg]
      exact map_fst_eraseKey_nodup hnd tabId
    | tabClosed =>
      show ((tabRemoved tabId s).tasks.map Prod.fst).Nodup
      unfold tabRemoved
      rw [tabRemovedCore_withTask tabId s p hreg, dropCache_tasks]
      exact map_fst_eraseKey_nodup hnd tabId

/-- Witness for C4: a match then a timeout race for tab 7. -/
theorem detection_first_outcome_wins_witness :
    lookupAssoc (startDetection 7 initScanState).1.tasks 7 = some 0
    ∧ lookupAssoc (startDetection 7 initScanState).1.promises 0
        = some PromState.pending
    ∧ lookupAssoc (applyOutcome 7 0 (DetOutcome.obsMatch "http://v.example/s.m3u8")
        (startDetection 7 initScanState).1).tasks 7 = none
    ∧ lookupAssoc (applyOutcome 7 0 (DetOutcome.timerFired 60)
        (applyOutcome 7 0 (DetOutcome.obsMatch "http://v.example/s.m3u8")
          (startDetection 7 initScanState).1)).promises 0
        = some (outcomeSettles (DetOutcome.obsMatch "http://v.example/s.m3u8")) := by
  have h := detection_first_outcome_wins (startDetection 7 initScanState).1 7 0
    (DetOutcome.obsMatch "http://v.example/s.m3u8") (DetOutcome.timerFired 60)
    (by decide) (by decide) (by intro url hu; cases hu; decide)
  exact ⟨by decide, by decide, h.1, h.2.2.1⟩

/-- C5.  With the task still registered (no match, no close), the timer
firing rejects the detection promise with the timeout error, whose
message embeds the configured duration followed by " seconds". -/
theorem detection_timeout_duration (s : ScanState) (tabId p t : Nat)
    (hreg : lookupAssoc s.tasks tabId = some p)
    (hpend : lookupAssoc s.promises p = some .pending) :
    lookupAssoc (fireTimeout tabId t p s).promises p
      = some (PromState.rejected (timeoutMsg t))
    ∧ timeoutMsg t
        = "M3U8 detection timed out after " ++ (Nat.repr t ++ " seconds") ++ "."
    ∧ occursIn (Nat.repr t ++ " seconds").data (timeoutMsg t).data = true := by
  have hdata : (timeoutMsg t).data
      = ("M3U8 detection timed out after ").data
        ++ ((Nat.repr t ++ " seconds").data ++ (".").data) := by
    have hsd : (" seconds.").data = (" seconds").data ++ (".").data := rfl
    simp [timeoutMsg, String.data_append, hsd, List.append_assoc]
  refine ⟨?_, ?_, ?_⟩
  · rw [fireTimeout_withTask tabId t p s p hreg]
    exact lookupAssoc_settleProm_pending s.promises p _ hpend
  · apply String.ext
    rw [hdata]
    simp [String.data_append, List.append_assoc]
  · rw [hdata]
    exact occursIn_append_right _ _ _ (occursIn_self_append _ _)

/-- Witness for C5: timeout of 5 seconds for tab 3. -/
theorem detection_timeout_duration_witness :
    lookupAssoc (startDetection 3 initScanState).1.tasks 3 = some 0
    ∧ lookupAssoc (fireTimeout 3 5 0 (startDetection 3 initScanState).1).promises 0
        = some (PromState.rejected (timeoutMsg 5))
    ∧ occursIn ("5 seconds").data (timeoutMsg 5).data = true := by
  have h := detection_timeout_duration (startDetection 3 initScanState).1 3 0 5
    (by decide) (by decide)
  exact ⟨by decide, h.1, by decide⟩

/-- C6.  Closing the scanner tab before a match and before the timer
rejects the detection promise with the "closed" error, removes the task,
and that error is distinct from every timeout error: it differs from
`timeoutMsg t` for all `t` and its text never mentions "timed out". -/
theorem detection_closed_error_distinct (s : ScanState) (tabId p : Nat)
    (hreg : lookupAssoc s.tasks tabId = some p)
    (hpend : lookupAssoc s.promises p = some .pending) :
    lookupAssoc (tabRemoved tabId s).promises p
      = some (PromState.rejected closedMsg)
    ∧ lookupAssoc (tabRemoved tabId s).tasks tabId = none
    ∧ (∀ t, closedMsg ≠ timeoutMsg t)
    ∧ occursIn ("timed out").data closedMsg.data = false := by
  have h := applyOutcome_settles tabId p .tabClosed s hreg hpend
    (fun url hu => nomatch hu)
  refine ⟨h.2, h.1, ?_, by decide⟩
  intro t hc
  have hfalse : occursIn ("timed out").data closedMsg.data = false := by decide
  have htrue : occursIn ("timed out").data (timeoutMsg t).data = true := by
    have hdata : (timeoutMsg t).data
        = ("M3U8 detection timed out after ").data
          ++ ((Nat.repr t).data ++ (" seconds.").data) := by
      simp [timeoutMsg, String.data_append, List.append_assoc]
    rw [hdata]
    exact occursIn_append_left _ _ _ (by decide)
  rw [hc, htrue] at hfalse
  cases hfalse

/-- Witness for C6: tab 4 closed while its detection is pending. -/
theorem detection_closed_error_distinct_witness :
    lookupAssoc (startDetection 4 initScanState).1.tasks 4 = some 0
    ∧ lookupAssoc (tabRemoved 4 (startDetection 4 initScanState).1).promises 0
        = some (PromState.rejected closedMsg)
    ∧ closedMsg ≠ timeoutMsg 60
    ∧ occursIn ("timed out").data closedMsg.data = false := by
  have h := detection_closed_error_distinct (startDetection 4 initScanState).1 4 0
    (by decide) (by decide)
  exact ⟨by decide, h.1, h.2.2.1 60, h.2.2.2⟩

/-- C9.  A first signature match for a tab (not deduplicated) produces
exactly one downstream effect — a detection-task resolution when a task
is registered, otherwise a general tab notification — and updates the
cache; an identical second match is skipped by the cache check with no
state change, and that check runs before the task lookup: any state whose
cache holds the url short-circuits, task registered or not. -/
theorem observer_dedup_before_task_lookup (s : ScanState) (tabId : Nat)
    (url : String)
    (hmiss : ¬lookupAssoc s.lastDetectedUrls tabId = some url) :
    ((∃ p, lookupAssoc s.tasks tabId = some p
        ∧ (headersMatch tabId url s).2 = some (ScanEffect.resolvedDetection p url))
      ∨ (lookupAssoc s.tasks tabId = none
        ∧ (headersMatch tabId url s).2 = some (ScanEffect.notifiedTab tabId url)))
    ∧ lookupAssoc (headersMatch tabId url s).1.lastDetectedUrls tabId = some url
    ∧ headersMatch tabId url (headersMatch tabId url s).1
        = ((headersMatch tabId url s).1, none)
    ∧ (∀ s2 : ScanState, lookupAssoc s2.lastDetectedUrls tabId = some url →
        headersMatch tabId url s2 = (s2, none)) := by
  have hcachepost : lookupAssoc (headersMatch tabId url s).1.lastDetectedUrls tabId
      = some url := by
    cases ht : lookupAssoc s.tasks tabId with
    | some p =>
      rw [headersMatch_withTask tabId url s p hmiss ht]
      exact lookupAssoc_setAssoc_self s.lastDetectedUrls tabId url
    | none =>
      rw [headersMatch_noTask tabId url s hmiss ht]
      exact lookupAssoc_setAssoc_self s.lastDetectedUrls tabId url
  refine ⟨?_, hcachepost, headersMatch_cached tabId url _ hcachepost,
    fun s2 h2 => headersMatch_cached tabId url s2 h2⟩
  cases ht : lookupAssoc s.tasks tabId with
  | some p =>
    refine Or.inl ⟨p, rfl, ?_⟩
    rw [headersMatch_withTask tabId url s p hmiss ht]
  | none =>
    refine Or.inr ⟨rfl, ?_⟩
    rw [headersMatch_noTask tabId url s hmiss ht]

/-- Witness for C9: two identical matches for tab 2 with a task armed. -/
theorem observer_dedup_before_task_lookup_witness :
    ¬lookupAssoc (startDetection 2 initScanState).1.lastDetectedUrls 2
        = some "http://a/b.m3u8"
    ∧ lookupAssoc (headersMatch 2 "http://a/b.m3u8"
        (startDetection 2 initScanState).1).1.lastDetectedUrls 2
        = some "http://a/b.m3u8"
    ∧ headersMatch 2 "http://a/b.m3u8" (headersMatch 2 "http://a/b.m3u8"
        (startDetection 2 initScanState).1).1
        = ((headersMatch 2 "http://a/b.m3u8" (startDetection 2 initScanState).1).1,
           none) := by
  have h := observer_dedup_before_task_lookup (startDetection 2 initScanState).1 2
    "http://a/b.m3u8" (by decide)
  exact ⟨by decide, h.2.1, h.2.2.1⟩

/-- The JS logical-or fallback `a || b`: the left operand when truthy,
the right operand otherwise (also when the left is absent). -/
def jsOr (v : Option JVal) (d : JVal) : JVal :=
  match v with
  | some x => if truthy x then x else d
  | none => d

/-- Effective scanner timeout read by `findM3u8InUrl`:
`settings.ui_preferences.global.stream_scanner_timeout || 60`. -/
def scannerTimeoutSetting (stored : Option JVal) : JVal :=
  jsOr stored (JVal.num 60)

/-- C10.  An absent, zero, or otherwise falsy stored
`stream_scanner_timeout` preference falls back to 60 seconds (a truthy
value passes through unchanged), so a configured 0 never yields an
immediate or unbounded wait. -/
theorem scanner_timeout_default_sixty :
    scannerTimeoutSetting none = JVal.num 60
    ∧ scannerTimeoutSetting (some (JVal.num 0)) = JVal.num 60
    ∧ (∀ v, truthy v = false → scannerTimeoutSetting (some v) = JVal.num 60)
    ∧ (∀ v, truthy v = true → scannerTimeoutSetting (some v) = v)
    ∧ JVal.num 60 ≠ JVal.num 0 := by
  refine ⟨rfl, by decide, ?_, ?_, by decide⟩
  · intro v h
    simp [scannerTimeoutSetting, jsOr, h]
  · intro v h
    simp [scannerTimeoutSetting, jsOr, h]

/-- Witness for C10: absent, zero and null settings all yield 60. -/
theorem scanner_timeout_default_sixty_witness :
    scannerTimeoutSetting none = JVal.num 60
    ∧ scannerTimeoutSetting (some (JVal.num 0)) = JVal.num 60
    ∧ scannerTimeoutSetting (some JVal.null) = JVal.num 60 := by
  have h := scanner_timeout_default_sixty
  exact ⟨h.1, h.2.1, h.2.2.1 JVal.null rfl⟩

/-!
Unsolicited exit events (src/background.js `handleMpvExited`, lines
264-283, and `handleClear`, lines 752-759).  Storage is reduced to the
fields these handlers read and write: the folder map (folder id to its
playlist of item objects) and the global `clear_on_completion`
preference.  `handleClear` assigns `data.folders[folderId].playlist = []`,
which in JS throws a TypeError when the folder is missing; that crash is
embedded as `none`.
-/

/-- Slice of chrome.storage.local that the exit handler touches. -/
structure Storage where
  folders : List (String × List Obj)
  clear_on_completion : Option JVal
deriving Repr

/-- The `handleClear` message handler: empty the folder's playlist and
answer with a success envelope (`none` embeds the TypeError raised on a
missing folder). -/
def handleClear (folderId : String) (st : Storage) : Option (Storage × Obj) :=
  match lookupAssoc st.folders folderId with
  | some _ => some
      ({ st with folders := setAssoc st.folders folderId [] },
       [("success", JVal.bool true),
        ("message", JVal.str ("Playlist in folder " ++ folderId ++ " cleared"))])
  | none => none

/-- The `handleMpvExited` policy hook for an unsolicited `mpv_exited`
event: bail out on a falsy folderId; read `clear_on_completion ?? false`;
clear the playlist only when the event's returnCode is exactly 99.  The
second component counts the clear actions performed. -/
def handleMpvExited (data : Obj) (st : Storage) : Option (Storage × Nat) :=
  match lookupField data "folderId" with
  | none => some (st, 0)
  | some fv =>
    if truthy fv then
      if truthy (st.clear_on_completion.getD (JVal.bool false)) then
        if lookupField data "returnCode" = some (JVal.num 99) then
          match handleClear (keyOf fv) st with
          | some (st2, _) => some (st2, 1)
          | none => none
        else some (st, 0)
      else some (st, 0)
    else some (st, 0)

/-- C8.  With `clear_on_completion` truthy and the folder present, an
unsolicited exit event with code 99 clears that folder's playlist exactly
once, while any other exit code (0 included) performs no clear and leaves
storage untouched. -/
theorem mpv_exit_code_policy (st : Storage) (fid : String) (pl : List Obj)
    (hfid : fid ≠ "")
    (hflag : truthy (st.clear_on_completion.getD (JVal.bool false)) = true)
    (hfold : lookupAssoc st.folders fid = some pl) :
    (handleMpvExited
        [("action", JVal.str "mpv_exited"), ("folderId", JVal.str fid),
         ("returnCode", JVal.num 99)] st
      = some ({ st with folders := setAssoc st.folders fid [] }, 1)
     ∧ lookupAssoc (setAssoc st.folders fid ([] : List Obj)) fid = some [])
    ∧ (∀ rc : Int, rc ≠ 99 → handleMpvExited
        [("action", JVal.str "mpv_exited"), ("folderId", JVal.str fid),
         ("returnCode", JVal.num rc)] st = some (st, 0)) := by
  have htr : truthy (JVal.str fid) = true := by
    simp [truthy]
    exact hfid
  constructor
  · constructor
    · show handleMpvExited _ st = _
      have hfv : lookupField
          [("action", JVal.str "mpv_exited"), ("folderId", JVal.str fid),
           ("returnCode", JVal.num 99)] "folderId" = some (JVal.str fid) := by
        simp [lookupField, lookupAssoc]
      have hrc : lookupField
          [("action", JVal.str "mpv_exited"), ("folderId", JVal.str fid),
           ("returnCode", JVal.num 99)] "returnCode" = some (JVal.num 99) := by
        simp [lookupField, lookupAssoc]
      have hcl : handleClear fid st = some
          ({ st with folders := setAssoc st.folders fid [] },
           [("success", JVal.bool true),
            ("message", JVal.str ("Playlist in folder " ++ fid ++ " cleared"))]) := by
        unfold handleClear
        rw [hfold]
      unfold handleMpvExited
      rw [hfv]
      simp only [htr, if_true, hflag, hrc, keyOf, hcl]
    · exact lookupAssoc_setAssoc_self st.folders fid []
  · intro rc hrc99
    have hfv : lookupField
        [("action", JVal.str "mpv_exited"), ("folderId", JVal.str fid),
         ("returnCode", JVal.num rc)] "folderId" = some (JVal.str fid) := by
      simp [lookupField, lookupAssoc]
    have hrc : lookupField
        [("action", JVal.str "mpv_exited"), ("folderId", JVal.str fid),
         ("returnCode", JVal.num rc)] "returnCode" = some (JVal.num rc) := by
      simp [lookupField, lookupAssoc]
    have hne : ¬(some (JVal.num rc) = some (JVal.num 99)) := by
      simp
      omega
    unfold handleMpvExited
    rw [hfv]
    simp only [htr, if_true, hflag, hrc]
    rw [if_neg hne]

/-- Witness for C8: one folder, flag on, exit codes 99 and 0. -/
theorem mpv_exit_code_policy_witness :
    truthy ((Storage.mk [("films", [[("url", JVal.str "http://a/v.m3u8")]])]
        (some (JVal.bool true))).clear_on_completion.getD (JVal.bool false)) = true
    ∧ handleMpvExited
        [("action", JVal.str "mpv_exited"), ("folderId", JVal.str "films"),
         ("returnCode", JVal.num 99)]
        (Storage.mk [("films", [[("url", JVal.str "http://a/v.m3u8")]])]
          (some (JVal.bool true)))
      = some (Storage.mk (setAssoc
          [("films", [[("url", JVal.str "http://a/v.m3u8")]])] "films" [])
          (some (JVal.bool true)), 1)
    ∧ handleMpvExited
        [("action", JVal.str "mpv_exited"), ("folderId", JVal.str "films"),
         ("returnCode", JVal.num 0)]
        (Storage.mk [("films", [[("url", JVal.str "http://a/v.m3u8")]])]
          (some (JVal.bool true)))
      = some (Storage.mk [("films", [[("url", JVal.str "http://a/v.m3u8")]])]
          (some (JVal.bool true)), 0) := by
  have h := mpv_exit_code_policy
    (Storage.mk [("films", [[("url", JVal.str "http://a/v.m3u8")]])]
      (some (JVal.bool true)))
    "films" [[("url", JVal.str "http://a/v.m3u8")]]
    (by decide) (by decide) (by decide)
  exact ⟨by decide, h.1.1, h.2 0 (by decide)⟩
